import Mathlib

/-!
Shallow embedding of the Taxable Tracker application core (`app.py`):
the data model (Category / Transaction / FuelLog), the fuel economy
deriver `compute_fuel_stats`, the report aggregator `ui_report`, the
creation handlers `ui_create_transaction` / `ui_add_category`, and the
CSV exporter `export_csv`. Monetary amounts are embedded as rationals,
Python `round` as round-half-to-even, and Python dicts over string keys
as insertion-ordered association lists.
-/

namespace Tracker

/-- Calendar date `(year, month, day)`, embedding Python `datetime.date`. -/
structure Date where
  year : ℕ
  month : ℕ
  day : ℕ
deriving DecidableEq, Repr

/-- The total order on Python `datetime.date`: lexicographic on
`(year, month, day)`. -/
def Date.le (a b : Date) : Prop :=
  a.year < b.year ∨
    (a.year = b.year ∧ (a.month < b.month ∨ (a.month = b.month ∧ a.day ≤ b.day)))

instance : DecidableRel Date.le := fun a b => by
  unfold Date.le; exact inferInstance

theorem Date.le_rfl (a : Date) : Date.le a a := by
  unfold Date.le; omega

theorem Date.le_tot (a b : Date) : Date.le a b ∨ Date.le b a := by
  unfold Date.le; omega

theorem Date.le_trns (a b c : Date) : Date.le a b → Date.le b c → Date.le a c := by
  unfold Date.le; omega

/-- Python `round(x)` on an exact rational value: round to the nearest
integer, ties to the even integer (banker's rounding). -/
def pyRoundInt (x : ℚ) : ℤ :=
  if x - Int.floor x < 1 / 2 then Int.floor x
  else if 1 / 2 < x - Int.floor x then Int.floor x + 1
  else if 2 ∣ Int.floor x then Int.floor x else Int.floor x + 1

/-- Python `round(x, 2)`. -/
def round2 (x : ℚ) : ℚ := (pyRoundInt (x * 100) : ℚ) / 100

/-- Python `round(x, 3)`. -/
def round3 (x : ℚ) : ℚ := (pyRoundInt (x * 1000) : ℚ) / 1000

/-- `Transaction` model (app.py lines 85-93). -/
structure Transaction where
  id : Option ℕ := none
  tx_date : Date
  type : String
  source : String := "rental"
  category : String
  amount : ℚ
  vendor : Option String := none
  notes : Option String := none
deriving DecidableEq, Repr

/-- `FuelLog` model (app.py lines 96-101). `odometer_km` is a Python
`int`, embedded as `ℤ`. -/
structure FuelLog where
  id : Option ℕ := none
  fill_date : Date
  odometer_km : ℤ
  total_cost : ℚ
  notes : Option String := none
deriving DecidableEq, Repr

/-- One output dict of `compute_fuel_stats` (app.py lines 157-165). -/
structure FuelEntry where
  id : Option ℕ
  fill_date : Date
  odometer_km : ℤ
  total_cost : ℚ
  notes : Option String
  km_since_last : Option ℤ
  cost_per_km : Option ℚ
deriving DecidableEq, Repr

/-- The key order used by `sorted(rows, key=lambda r: r.fill_date)`. -/
def fuelLe (a b : FuelLog) : Prop := Date.le a.fill_date b.fill_date

instance : DecidableRel fuelLe := fun a b => by
  unfold fuelLe; exact inferInstance

instance : IsTotal FuelLog fuelLe :=
  ⟨fun a b => Date.le_tot a.fill_date b.fill_date⟩

instance : IsTrans FuelLog fuelLe :=
  ⟨fun a b c => Date.le_trns a.fill_date b.fill_date c.fill_date⟩

/-- `sorted(rows, key=lambda r: r.fill_date)` (app.py line 153): a stable
sort ascending by fill date; insertion sort is extensionally the same
stable sort. -/
def sortFuel (rows : List FuelLog) : List FuelLog :=
  List.insertionSort fuelLe rows

/-- The entry built for one row of the loop body (app.py lines 156-171):
derived fields are set only when a previous row exists and the odometer
strictly increased; the code guards the division with `if km`. -/
def mkEntry (prev : Option FuelLog) (f : FuelLog) : FuelEntry :=
  match prev with
  | some p =>
      if p.odometer_km < f.odometer_km then
        let km := f.odometer_km - p.odometer_km
        { id := f.id, fill_date := f.fill_date, odometer_km := f.odometer_km,
          total_cost := f.total_cost, notes := f.notes,
          km_since_last := some km,
          cost_per_km :=
            if km = 0 then none else some (round3 (f.total_cost / (km : ℚ))) }
      else
        { id := f.id, fill_date := f.fill_date, odometer_km := f.odometer_km,
          total_cost := f.total_cost, notes := f.notes,
          km_since_last := none, cost_per_km := none }
  | none =>
      { id := f.id, fill_date := f.fill_date, odometer_km := f.odometer_km,
        total_cost := f.total_cost, notes := f.notes,
        km_since_last := none, cost_per_km := none }

/-- The walk over the sorted rows with the running `prev` variable
(app.py lines 155-171), oldest first. -/
def fuelEntries : Option FuelLog → List FuelLog → List FuelEntry
  | _, [] => []
  | prev, f :: rest => mkEntry prev f :: fuelEntries (some f) rest

/-- `compute_fuel_stats` (app.py lines 149-173): sort ascending by fill
date, derive fields oldest first, return the list reversed (newest
first). -/
def compute_fuel_stats (rows : List FuelLog) : List FuelEntry :=
  (fuelEntries none (sortFuel rows)).reverse

/-- Python `dict.get(k, d)` on an insertion-ordered association list. -/
def dictGet : List (String × ℚ) → String → ℚ → ℚ
  | [], _, d => d
  | p :: rest, k, d => if p.1 = k then p.2 else dictGet rest k d

/-- Python `m[k] = v`: replace in place when the key exists, append
otherwise. -/
def dictSet : List (String × ℚ) → String → ℚ → List (String × ℚ)
  | [], k, v => [(k, v)]
  | p :: rest, k, v => if p.1 = k then (k, v) :: rest else p :: dictSet rest k v

/-- `m[k] = m.get(k, 0.0) + a` (app.py lines 349 and 353). -/
def dictIncr (m : List (String × ℚ)) (k : String) (a : ℚ) : List (String × ℚ) :=
  dictSet m k (dictGet m k 0 + a)

/-- The `by_category_expense` accumulation loop (app.py lines 346-349). -/
def by_category_expense_of (txs : List Transaction) : List (String × ℚ) :=
  txs.foldl (fun m t => if t.type = "expense" then dictIncr m t.category t.amount else m) []

/-- The order used by `sorted(..., key=lambda x: x[0])` (app.py
lines 356-359). -/
def catLe (a b : String × ℚ) : Prop := a.1 ≤ b.1

instance : DecidableRel catLe := fun a b => by
  unfold catLe; exact inferInstance

/-- The template context produced by the report route (app.py
lines 363-376), minus the opaque `request` handle. -/
structure Report where
  year : ℕ
  income_total : ℚ
  expense_total : ℚ
  net_total : ℚ
  by_category : List (String × ℚ)
  transactions : List Transaction
  fuel_rows : List FuelEntry
  include_fuel_log : Bool

/-- `ui_report` aggregation (app.py lines 322-376). The two record lists
are the query results for the year's half-open range (the record store is
the external collaborator); `include_fuel_log` is truthy iff the flag is
nonzero. -/
def ui_report (year : ℕ) (include_fuel_log : Bool)
    (txs : List Transaction) (fuels : List FuelLog) : Report :=
  let income_total :=
    txs.foldl (fun acc t => if t.type = "income" then acc + t.amount else acc) 0
  let expense_tx_total :=
    txs.foldl (fun acc t => if t.type = "expense" then acc + t.amount else acc) 0
  let m0 := by_category_expense_of txs
  let fuel_total := fuels.foldl (fun acc f => acc + f.total_cost) 0
  let m1 := if include_fuel_log then dictIncr m0 "Fuel" fuel_total else m0
  let expense_total :=
    if include_fuel_log then expense_tx_total + fuel_total else expense_tx_total
  { year := year
    income_total := round2 income_total
    expense_total := round2 expense_total
    net_total := round2 (income_total - expense_total)
    by_category := List.insertionSort catLe (m1.map (fun p => (p.1, round2 p.2)))
    transactions := txs
    fuel_rows := compute_fuel_stats fuels.reverse
    include_fuel_log := include_fuel_log }

/-- The keys of the template context dict rendered by the report route
(app.py lines 363-376). -/
def reportKeys : List String :=
  ["request", "year", "income_total", "expense_total", "net_total",
   "by_category", "transactions", "fuel_rows", "include_fuel_log"]

/-- The parameters of the report route handler (app.py lines 323-327). -/
def reportParams : List String := ["request", "year", "include_fuel_log"]

/-- The fields of the `FuelLog` model (app.py lines 96-101). -/
def fuelLogFields : List String :=
  ["id", "fill_date", "odometer_km", "total_cost", "notes"]

/-- The half-open year range `[Jan 1 year, Jan 1 (year+1))` (app.py
lines 139-142). -/
def ytd_range (year : ℕ) : Date × Date := (⟨year, 1, 1⟩, ⟨year + 1, 1, 1⟩)

/-- Python whitespace stripped by `str.strip()`. -/
def isPySpace (c : Char) : Bool :=
  c = ' ' || c = '\t' || c = '\n' || c = '\r' || c = '\x0b' || c = '\x0c'

/-- Python `str.strip()`: drop leading and trailing whitespace. -/
def pyStrip (s : String) : String :=
  ⟨((s.data.dropWhile isPySpace).reverse.dropWhile isPySpace).reverse⟩

/-- Outcome of a route handler: an `HTTPException` with a 4xx status, an
unhandled exception (HTTP 500), or a redirect response. -/
inductive HttpResult where
  | badRequest (detail : String)
  | serverError
  | redirect (url : String)
deriving DecidableEq, Repr

/-- `date.fromisoformat` on a `YYYY-MM-DD` string, embedded with the
month in `1..12` and the day in `1..31`; `none` embeds the raised
`ValueError`. -/
def parseIsoDate (s : String) : Option Date :=
  match s.splitOn "-" with
  | [ys, ms, ds] =>
      match ys.toNat?, ms.toNat?, ds.toNat? with
      | some y, some m, some d =>
          if 1 ≤ m ∧ m ≤ 12 ∧ 1 ≤ d ∧ d ≤ 31 then some ⟨y, m, d⟩ else none
      | _, _, _ => none
  | _ => none

/-- `ui_create_transaction` (app.py lines 232-262): validate the kind and
the source before anything is persisted; `db` is the stored transaction
table, returned unchanged on rejection. -/
def ui_create_transaction (tx_date source type category : String) (amount : ℚ)
    (vendor notes : String) (db : List Transaction) :
    HttpResult × List Transaction :=
  if type ≠ "income" ∧ type ≠ "expense" then
    (HttpResult.badRequest "type must be income or expense", db)
  else if source ≠ "rental" ∧ source ≠ "work" then
    (HttpResult.badRequest "source must be rental or work", db)
  else
    match parseIsoDate tx_date with
    | none => (HttpResult.serverError, db)
    | some d =>
        let tx : Transaction :=
          { tx_date := d, source := source, type := type, category := category,
            amount := amount,
            vendor := if pyStrip vendor = "" then none else some (pyStrip vendor),
            notes := if pyStrip notes = "" then none else some (pyStrip notes) }
        (HttpResult.redirect "/ui", db ++ [tx])

/-- `ui_add_category` (app.py lines 268-280): trim, silently redirect on
an empty name, insert only when the trimmed name is not already stored.
`cats` is the stored category-name table in insertion order. -/
def ui_add_category (name : String) (cats : List String) :
    HttpResult × List String :=
  let clean := pyStrip name
  if clean = "" then (HttpResult.redirect "/ui/transaction/new", cats)
  else if clean ∈ cats then (HttpResult.redirect "/ui/transaction/new", cats)
  else (HttpResult.redirect "/ui/transaction/new", cats ++ [clean])

/-- Zero-padded two-digit decimal rendering of `n % 100`. -/
def twoDigits (n : ℕ) : String :=
  ⟨[Nat.digitChar (n / 10 % 10), Nat.digitChar (n % 10)]⟩

/-- Python `f"{x:.2f}"` on an exact rational: round half to even at two
decimals, then render with exactly two digits after the point. -/
def fmt2 (x : ℚ) : String :=
  let n := pyRoundInt (x * 100)
  (if n < 0 then "-" else "") ++ toString (n.natAbs / 100) ++ "." ++ twoDigits (n.natAbs % 100)

/-- `date.isoformat()`: `YYYY-MM-DD` with a zero-padded 4-digit year. -/
def Date.iso (d : Date) : String :=
  (if d.year < 10 then "000" else if d.year < 100 then "00"
   else if d.year < 1000 then "0" else "")
    ++ toString d.year ++ "-" ++ twoDigits d.month ++ "-" ++ twoDigits d.day

/-- One `TRANSACTION` row of the CSV export (app.py lines 399-409). -/
def txRow (t : Transaction) : List String :=
  ["TRANSACTION", t.tx_date.iso, t.type, t.source, t.category, fmt2 t.amount,
   t.vendor.getD "", t.notes.getD ""]

/-- One `FUEL` row of the CSV export (app.py lines 413-420). -/
def fuelRow (f : FuelLog) : List String :=
  ["FUEL", f.fill_date.iso, toString f.odometer_km, fmt2 f.total_cost,
   f.notes.getD ""]

/-- `export_csv` (app.py lines 382-428) as the list of CSV records: the
transaction header and rows, a blank row, then the fuel header and rows.
The two record lists are the year-filtered query results. -/
def export_csv (txs : List Transaction) (fuels : List FuelLog) :
    List (List String) :=
  ["SECTION", "date", "type", "source", "category", "amount", "vendor", "notes"]
    :: (txs.map txRow
      ++ [[]]
      ++ ["SECTION", "date", "odometer_km", "total_cost", "notes"]
        :: fuels.map fuelRow)

/-! ### Unrounded reference sums -/

/-- Unrounded income sum of a transaction list. -/
def rawIncome (txs : List Transaction) : ℚ :=
  ((txs.filter (fun t => decide (t.type = "income"))).map (fun t => t.amount)).sum

/-- Unrounded expense sum of a transaction list (fuel excluded). -/
def rawExpenseTx (txs : List Transaction) : ℚ :=
  ((txs.filter (fun t => decide (t.type = "expense"))).map (fun t => t.amount)).sum

/-- Unrounded total cost of a fuel-log list. -/
def rawFuel (fuels : List FuelLog) : ℚ :=
  (fuels.map (fun f => f.total_cost)).sum

/-- Unrounded expense total, folded fuel included when the flag is set. -/
def rawExpense (include_fuel_log : Bool) (txs : List Transaction)
    (fuels : List FuelLog) : ℚ :=
  rawExpenseTx txs + (if include_fuel_log then rawFuel fuels else 0)

/-- The category map before rounding, folded fuel included when the flag
is set. -/
def byCategoryRaw (include_fuel_log : Bool) (txs : List Transaction)
    (fuels : List FuelLog) : List (String × ℚ) :=
  if include_fuel_log then
    dictIncr (by_category_expense_of txs) "Fuel" (rawFuel fuels)
  else by_category_expense_of txs

/-! ### Fold and dict lemmas -/

theorem foldl_income_eq (txs : List Transaction) (a : ℚ) :
    txs.foldl (fun acc t => if t.type = "income" then acc + t.amount else acc) a
      = a + rawIncome txs := by
  induction txs generalizing a with
  | nil => simp [rawIncome]
  | cons t ts ih =>
      by_cases h : t.type = "income"
      · simp [rawIncome, List.filter_cons, h, ih, List.sum_cons]; ring
      · simp [rawIncome, List.filter_cons, h, ih]

theorem foldl_expense_eq (txs : List Transaction) (a : ℚ) :
    txs.foldl (fun acc t => if t.type = "expense" then acc + t.amount else acc) a
      = a + rawExpenseTx txs := by
  induction txs generalizing a with
  | nil => simp [rawExpenseTx]
  | cons t ts ih =>
      by_cases h : t.type = "expense"
      · simp [rawExpenseTx, List.filter_cons, h, ih, List.sum_cons]; ring
      · simp [rawExpenseTx, List.filter_cons, h, ih]

theorem foldl_fuel_eq (fuels : List FuelLog) (a : ℚ) :
    fuels.foldl (fun acc f => acc + f.total_cost) a = a + rawFuel fuels := by
  induction fuels generalizing a with
  | nil => simp [rawFuel]
  | cons f fs ih => simp [rawFuel, ih, List.sum_cons]; ring

theorem dictIncr_sum (m : List (String × ℚ)) (k : String) (a : ℚ) :
    ((dictIncr m k a).map Prod.snd).sum = (m.map Prod.snd).sum + a := by
  induction m with
  | nil => simp [dictIncr, dictSet, dictGet]
  | cons p rest ih =>
      by_cases h : p.1 = k
      · simp [dictIncr, dictSet, dictGet, h]; ring
      · simp only [dictIncr, dictSet, dictGet, if_neg h] at ih ⊢
        simp [ih]; ring

theorem mem_dictIncr_self (m : List (String × ℚ)) (k : String) (a : ℚ) :
    (k, dictGet m k 0 + a) ∈ dictIncr m k a := by
  induction m with
  | nil => simp [dictIncr, dictSet, dictGet]
  | cons p rest ih =>
      by_cases h : p.1 = k
      · simp [dictIncr, dictSet, dictGet, h]
      · simp only [dictIncr, dictSet, dictGet, if_neg h] at ih ⊢
        exact List.mem_cons_of_mem _ ih

theorem not_mem_keys_dictSet (m : List (String × ℚ)) (k k' : String) (v : ℚ)
    (hm : k ∉ m.map Prod.fst) (hk : k ≠ k') :
    k ∉ (dictSet m k' v).map Prod.fst := by
  induction m with
  | nil => simpa [dictSet] using hk
  | cons p rest ih =>
      simp only [List.map_cons, List.mem_cons, not_or] at hm
      by_cases h : p.1 = k'
      · simp only [dictSet, if_pos h, List.map_cons, List.mem_cons, not_or]
        exact ⟨hk, hm.2⟩
      · simp only [dictSet, if_neg h, List.map_cons, List.mem_cons, not_or]
        exact ⟨hm.1, ih hm.2⟩

theorem dictGet_of_not_mem (m : List (String × ℚ)) (k : String) (d : ℚ)
    (hm : k ∉ m.map Prod.fst) : dictGet m k d = d := by
  induction m with
  | nil => simp [dictGet]
  | cons p rest ih =>
      simp only [List.map_cons, List.mem_cons, not_or] at hm
      have hne : ¬ (p.1 = k) := fun h => hm.1 h.symm
      simp only [dictGet, if_neg hne]
      exact ih hm.2

theorem by_cat_fold_sum (txs : List Transaction) (m : List (String × ℚ)) :
    (((txs.foldl
        (fun m t => if t.type = "expense" then dictIncr m t.category t.amount else m)
        m).map Prod.snd).sum)
      = (m.map Prod.snd).sum + rawExpenseTx txs := by
  induction txs generalizing m with
  | nil => simp [rawExpenseTx]
  | cons t ts ih =>
      by_cases h : t.type = "expense"
      · simp only [List.foldl_cons, if_pos h]
        rw [ih, dictIncr_sum]
        simp [rawExpenseTx, List.filter_cons, h, List.sum_cons]
        ring
      · simp only [List.foldl_cons, if_neg h]
        rw [ih]
        simp [rawExpenseTx, List.filter_cons, h]

theorem by_cat_fold_keys (txs : List Transaction) (m : List (String × ℚ))
    (k : String) (hm : k ∉ m.map Prod.fst)
    (h : ∀ t ∈ txs, t.type = "expense" → t.category ≠ k) :
    k ∉ ((txs.foldl
        (fun m t => if t.type = "expense" then dictIncr m t.category t.amount else m)
        m).map Prod.fst) := by
  induction txs generalizing m with
  | nil => simpa using hm
  | cons t ts ih =>
      simp only [List.foldl_cons]
      by_cases he : t.type = "expense"
      · rw [if_pos he]
        refine ih _ ?_ (fun u hu => h u (List.mem_cons_of_mem _ hu))
        exact not_mem_keys_dictSet _ _ _ _ hm
          (fun hk => (h t (List.mem_cons_self _ _) he) hk.symm)
      · rw [if_neg he]
        exact ih _ hm (fun u hu => h u (List.mem_cons_of_mem _ hu))

/-! ### Report field characterizations -/

theorem report_income_total (year : ℕ) (incl : Bool)
    (txs : List Transaction) (fuels : List FuelLog) :
    (ui_report year incl txs fuels).income_total = round2 (rawIncome txs) := by
  simp [ui_report, foldl_income_eq]

theorem report_expense_total (year : ℕ) (incl : Bool)
    (txs : List Transaction) (fuels : List FuelLog) :
    (ui_report year incl txs fuels).expense_total
      = round2 (rawExpense incl txs fuels) := by
  cases incl <;>
    simp [ui_report, rawExpense, foldl_expense_eq, foldl_fuel_eq]

theorem report_net_total (year : ℕ) (incl : Bool)
    (txs : List Transaction) (fuels : List FuelLog) :
    (ui_report year incl txs fuels).net_total
      = round2 (rawIncome txs - rawExpense incl txs fuels) := by
  cases incl <;>
    simp [ui_report, rawExpense, foldl_income_eq, foldl_expense_eq, foldl_fuel_eq]

theorem report_by_category (year : ℕ) (incl : Bool)
    (txs : List Transaction) (fuels : List FuelLog) :
    (ui_report year incl txs fuels).by_category
      = List.insertionSort catLe
          ((byCategoryRaw incl txs fuels).map (fun p => (p.1, round2 p.2))) := by
  cases incl <;>
    simp [ui_report, byCategoryRaw, foldl_fuel_eq, rawFuel]

/-! ### Rounding evaluation lemmas -/

theorem pyRoundInt_low {x : ℚ} {n : ℤ} (h1 : (n : ℚ) ≤ x) (h2 : x < n + 1 / 2) :
    pyRoundInt x = n := by
  have hf : Int.floor x = n := Int.floor_eq_iff.mpr ⟨h1, by linarith⟩
  unfold pyRoundInt
  rw [hf]
  rw [if_pos (by linarith)]

theorem pyRoundInt_high {x : ℚ} {n : ℤ} (h1 : (n : ℚ) + 1 / 2 < x)
    (h2 : x < n + 1) : pyRoundInt x = n + 1 := by
  have hf : Int.floor x = n := Int.floor_eq_iff.mpr ⟨by linarith, by linarith⟩
  unfold pyRoundInt
  rw [hf]
  rw [if_neg (by linarith), if_pos (by linarith)]

theorem pyRoundInt_nonneg {x : ℚ} (h : 0 ≤ x) : 0 ≤ pyRoundInt x := by
  have hf : (0 : ℤ) ≤ Int.floor x := Int.floor_nonneg.mpr h
  unfold pyRoundInt
  split
  · exact hf
  · split
    · omega
    · split
      · exact hf
      · omega

theorem pyRoundInt_zero : pyRoundInt 0 = 0 :=
  pyRoundInt_low (n := 0) (by norm_num) (by norm_num)

theorem round2_zero : round2 0 = 0 := by
  unfold round2
  norm_num [pyRoundInt_zero]

theorem round3_nonneg {x : ℚ} (h : 0 ≤ x) : 0 ≤ round3 x := by
  unfold round3
  have := pyRoundInt_nonneg (x := x * 1000) (by positivity)
  positivity

/-! ### Fuel deriver lemmas -/

theorem mkEntry_fill_date : ∀ (prev : Option FuelLog) (f : FuelLog),
    (mkEntry prev f).fill_date = f.fill_date
  | none, _ => rfl
  | some p, f => by
      unfold mkEntry
      dsimp only
      by_cases h : p.odometer_km < f.odometer_km
      · rw [if_pos h]
      · rw [if_neg h]

theorem mkEntry_none (f : FuelLog) :
    (mkEntry none f).km_since_last = none ∧ (mkEntry none f).cost_per_km = none :=
  ⟨rfl, rfl⟩

theorem mkEntry_not_increasing {p f : FuelLog} (h : f.odometer_km ≤ p.odometer_km) :
    (mkEntry (some p) f).km_since_last = none ∧
      (mkEntry (some p) f).cost_per_km = none := by
  unfold mkEntry
  dsimp only
  rw [if_neg (by omega)]
  exact ⟨rfl, rfl⟩

theorem mkEntry_increasing {p f : FuelLog} (h : p.odometer_km < f.odometer_km) :
    (mkEntry (some p) f).km_since_last = some (f.odometer_km - p.odometer_km) ∧
      (mkEntry (some p) f).cost_per_km =
        some (round3 (f.total_cost / ((f.odometer_km - p.odometer_km : ℤ) : ℚ))) := by
  unfold mkEntry
  dsimp only
  rw [if_pos h]
  exact ⟨rfl, by rw [if_neg (by omega)]⟩

theorem fuelEntries_map_fill_date (l : List FuelLog) (prev : Option FuelLog) :
    (fuelEntries prev l).map (fun e => e.fill_date)
      = l.map (fun f => f.fill_date) := by
  induction l generalizing prev with
  | nil => rfl
  | cons f rest ih => simp [fuelEntries, mkEntry_fill_date, ih]

theorem fuelEntries_chain (l : List FuelLog) (prev : Option FuelLog) :
    List.Chain' (fun a b : FuelLog × FuelEntry =>
        b.1.odometer_km ≤ a.1.odometer_km →
          b.2.km_since_last = none ∧ b.2.cost_per_km = none)
      (l.zip (fuelEntries prev l)) := by
  induction l generalizing prev with
  | nil => simp
  | cons f rest ih =>
      cases rest with
      | nil => simp [fuelEntries]
      | cons g rest2 =>
          simp only [fuelEntries, List.zip_cons_cons, List.chain'_cons]
          refine ⟨fun h => mkEntry_not_increasing h, ?_⟩
          simpa only [fuelEntries, List.zip_cons_cons] using ih (some f)

theorem fuelEntries_mem {l : List FuelLog} {prev : Option FuelLog} {e : FuelEntry}
    (he : e ∈ fuelEntries prev l) (hc : ∀ r ∈ l, 0 ≤ r.total_cost) :
    (∀ km, e.km_since_last = some km → 0 < km) ∧
      (∀ c, e.cost_per_km = some c →
        0 ≤ c ∧ ∃ km, e.km_since_last = some km ∧ 0 < km) := by
  induction l generalizing prev with
  | nil => simp [fuelEntries] at he
  | cons f rest ih =>
      simp only [fuelEntries, List.mem_cons] at he
      rcases he with rfl | he
      · cases prev with
        | none =>
            refine ⟨fun km hkm => ?_, fun c hcc => ?_⟩
            · rw [(mkEntry_none f).1] at hkm; cases hkm
            · rw [(mkEntry_none f).2] at hcc; cases hcc
        | some p =>
            by_cases hlt : p.odometer_km < f.odometer_km
            · obtain ⟨h1, h2⟩ := mkEntry_increasing hlt
              refine ⟨fun km hkm => ?_, fun c hcc => ?_⟩
              · rw [h1] at hkm
                simp only [Option.some.injEq] at hkm
                omega
              · rw [h2] at hcc
                simp only [Option.some.injEq] at hcc
                refine ⟨?_, ⟨f.odometer_km - p.odometer_km, h1, by omega⟩⟩
                rw [← hcc]
                refine round3_nonneg (div_nonneg ?_ ?_)
                · exact hc f (List.mem_cons_self _ _)
                · exact_mod_cast (by omega : (0 : ℤ) ≤ f.odometer_km - p.odometer_km)
            · obtain ⟨h1, h2⟩ := mkEntry_not_increasing (p := p) (f := f) (by omega)
              refine ⟨fun km hkm => ?_, fun c hcc => ?_⟩
              · rw [h1] at hkm; cases hkm
              · rw [h2] at hcc; cases hcc
      · exact ih he (fun r hr => hc r (List.mem_cons_of_mem _ hr))

theorem fuelEntries_head {l : List FuelLog} {e : FuelEntry}
    (h : (fuelEntries none l).head? = some e) :
    e.km_since_last = none ∧ e.cost_per_km = none := by
  cases l with
  | nil => simp [fuelEntries] at h
  | cons f rest =>
      simp only [fuelEntries, List.head?_cons, Option.some.injEq] at h
      rw [← h]
      exact mkEntry_none f

/-! ### Stability of the fuel sort -/

theorem filter_orderedInsert_eq (x : FuelLog) (d : Date) (hx : x.fill_date = d)
    (s : List FuelLog) :
    (List.orderedInsert fuelLe x s).filter (fun r => decide (r.fill_date = d))
      = x :: s.filter (fun r => decide (r.fill_date = d)) := by
  induction s with
  | nil => simp [hx]
  | cons y ys ih =>
      by_cases h : fuelLe x y
      · rw [List.orderedInsert, if_pos h]
        simp [List.filter_cons, hx]
      · rw [List.orderedInsert, if_neg h]
        have hy : ¬ (y.fill_date = d) := by
          intro hd
          exact h (by unfold fuelLe; rw [hx, hd]; exact Date.le_rfl d)
        simp [List.filter_cons, hy, ih]

theorem filter_orderedInsert_ne (x : FuelLog) (d : Date) (hx : ¬ (x.fill_date = d))
    (s : List FuelLog) :
    (List.orderedInsert fuelLe x s).filter (fun r => decide (r.fill_date = d))
      = s.filter (fun r => decide (r.fill_date = d)) := by
  induction s with
  | nil => simp [hx]
  | cons y ys ih =>
      by_cases h : fuelLe x y
      · rw [List.orderedInsert, if_pos h]
        simp [List.filter_cons, hx]
      · rw [List.orderedInsert, if_neg h]
        simp [List.filter_cons, ih]

theorem filter_sortFuel (rows : List FuelLog) (d : Date) :
    (sortFuel rows).filter (fun r => decide (r.fill_date = d))
      = rows.filter (fun r => decide (r.fill_date = d)) := by
  induction rows with
  | nil => rfl
  | cons x l ih =>
      show (List.orderedInsert fuelLe x (List.insertionSort fuelLe l)).filter _ = _
      by_cases hx : x.fill_date = d
      · rw [filter_orderedInsert_eq x d hx]
        rw [show List.insertionSort fuelLe l = sortFuel l from rfl, ih]
        simp [List.filter_cons, hx]
      · rw [filter_orderedInsert_ne x d hx]
        rw [show List.insertionSort fuelLe l = sortFuel l from rfl, ih]
        simp [List.filter_cons, hx]

theorem sortFuel_sorted (rows : List FuelLog) :
    List.Sorted fuelLe (sortFuel rows) :=
  List.sorted_insertionSort fuelLe rows

theorem compute_fuel_stats_newest_first (rows : List FuelLog) :
    (compute_fuel_stats rows).Pairwise
      (fun a b : FuelEntry => Date.le b.fill_date a.fill_date) := by
  unfold compute_fuel_stats
  rw [List.pairwise_reverse]
  have hs : List.Pairwise fuelLe (sortFuel rows) := sortFuel_sorted rows
  have hm : List.Pairwise (fun a b : Date => Date.le a b)
      ((sortFuel rows).map (fun f => f.fill_date)) := List.pairwise_map.mpr hs
  rw [← fuelEntries_map_fill_date (sortFuel rows) none] at hm
  exact List.pairwise_map.mp hm

/-! ### Further shared helpers -/

theorem sum_snd_insertionSort (l : List (String × ℚ)) :
    ((List.insertionSort catLe l).map Prod.snd).sum = (l.map Prod.snd).sum :=
  ((List.perm_insertionSort catLe l).map Prod.snd).sum_eq

theorem round2_6thousandths : round2 (6 / 1000 : ℚ) = 1 / 100 := by
  unfold round2
  rw [show (6 / 1000 : ℚ) * 100 = 3 / 5 by norm_num]
  rw [pyRoundInt_high (n := 0) (by norm_num) (by norm_num)]
  norm_num

theorem round2_4thousandths : round2 (4 / 1000 : ℚ) = 0 := by
  unfold round2
  rw [show (4 / 1000 : ℚ) * 100 = 2 / 5 by norm_num]
  rw [pyRoundInt_low (n := 0) (by norm_num) (by norm_num)]
  norm_num

theorem round2_2thousandths : round2 (2 / 1000 : ℚ) = 0 := by
  unfold round2
  rw [show (2 / 1000 : ℚ) * 100 = 1 / 5 by norm_num]
  rw [pyRoundInt_low (n := 0) (by norm_num) (by norm_num)]
  norm_num

theorem round2_8thousandths : round2 (8 / 1000 : ℚ) = 1 / 100 := by
  unfold round2
  rw [show (8 / 1000 : ℚ) * 100 = 4 / 5 by norm_num]
  rw [pyRoundInt_high (n := 0) (by norm_num) (by norm_num)]
  norm_num

/-! ### Claim C1 -/

/-- Example data for C1: one income of 0.006 and one expense of 0.004. -/
def c1txs : List Transaction :=
  [{ tx_date := ⟨2024, 3, 1⟩, type := "income", category := "Rental Income",
     amount := 6 / 1000 },
   { tx_date := ⟨2024, 3, 15⟩, type := "expense", category := "Utilities",
     amount := 4 / 1000 }]

/-- Claim C1 counterexample: the reported net total is not the difference
of the reported (rounded) totals. With amounts 0.006 income and 0.004
expense the rounded totals are 0.01 and 0.00, yet the net total is
round2(0.002) = 0.00, not 0.01. -/
theorem report_net_total_ne_rounded_difference :
    (ui_report 2024 true c1txs []).net_total
      ≠ (ui_report 2024 true c1txs []).income_total
        - (ui_report 2024 true c1txs []).expense_total := by
  rw [report_net_total, report_income_total, report_expense_total]
  have hI : rawIncome c1txs = 6 / 1000 := by
    simp [c1txs, rawIncome, List.filter_cons]
  have hE : rawExpense true c1txs [] = 4 / 1000 := by
    simp [c1txs, rawExpense, rawExpenseTx, rawFuel, List.filter_cons]
  rw [hI, hE, show (6 / 1000 - 4 / 1000 : ℚ) = 2 / 1000 by norm_num,
    round2_2thousandths, round2_6thousandths, round2_4thousandths]
  norm_num

/-- Claim C1 (amended): the report's `income_total` and `expense_total`
are the raw (unrounded) sums rounded to 2 decimals, and `net_total` is
the raw difference rounded once: `net_total = round2(raw_income -
raw_expense)`. It is not in general the difference of the two
individually rounded totals. -/
theorem report_net_total_rounds_raw_difference (year : ℕ) (incl : Bool)
    (txs : List Transaction) (fuels : List FuelLog) :
    (ui_report year incl txs fuels).income_total = round2 (rawIncome txs) ∧
    (ui_report year incl txs fuels).expense_total
      = round2 (rawExpense incl txs fuels) ∧
    (ui_report year incl txs fuels).net_total
      = round2 (rawIncome txs - rawExpense incl txs fuels) :=
  ⟨report_income_total year incl txs fuels,
    report_expense_total year incl txs fuels,
    report_net_total year incl txs fuels⟩

/-! ### Claim C2 -/

/-- Example data for C2: two expenses of 0.004 in distinct categories. -/
def c2txs : List Transaction :=
  [{ tx_date := ⟨2024, 2, 1⟩, type := "expense", category := "Meals",
     amount := 4 / 1000 },
   { tx_date := ⟨2024, 2, 2⟩, type := "expense", category := "Parking",
     amount := 4 / 1000 }]

/-- Claim C2 counterexample: with two expenses of 0.004 in distinct
categories (and no fuel), every rounded `by_category` value is 0.00, so
their sum is 0.00, while `expense_total = round2(0.008) = 0.01`. -/
theorem by_category_rounded_sum_ne_expense_total :
    (((ui_report 2024 true c2txs []).by_category.map Prod.snd).sum)
      ≠ (ui_report 2024 true c2txs []).expense_total := by
  rw [report_by_category, report_expense_total, sum_snd_insertionSort]
  have hraw : byCategoryRaw true c2txs []
      = [("Meals", 0 + 4 / 1000), ("Parking", 0 + 4 / 1000), ("Fuel", 0 + 0)] := by
    simp [byCategoryRaw, c2txs, by_category_expense_of, dictIncr, dictGet, dictSet,
      rawFuel]
  have hE : rawExpense true c2txs [] = 8 / 1000 := by
    simp [c2txs, rawExpense, rawExpenseTx, rawFuel, List.filter_cons]
    norm_num
  rw [hraw, hE, round2_8thousandths]
  simp only [List.map_cons, List.map_nil, List.sum_cons, List.sum_nil]
  rw [show ((0 : ℚ) + 4 / 1000) = 4 / 1000 by norm_num,
    show ((0 : ℚ) + 0) = 0 by norm_num,
    round2_4thousandths, round2_zero]
  norm_num

/-- Claim C2 (amended): the unrounded `by_category` values (folded fuel
included) sum to the unrounded expense total, so `expense_total` is that
sum rounded once; but the reported `by_category` entries are rounded
individually, and their sum can differ from `expense_total`. -/
theorem report_expense_total_eq_sum_byCategoryRaw (year : ℕ) (incl : Bool)
    (txs : List Transaction) (fuels : List FuelLog) :
    (ui_report year incl txs fuels).expense_total
      = round2 (((byCategoryRaw incl txs fuels).map Prod.snd).sum) ∧
    (((ui_report year incl txs fuels).by_category.map Prod.snd).sum)
      = ((byCategoryRaw incl txs fuels).map (fun p => round2 p.2)).sum := by
  constructor
  · rw [report_expense_total]
    congr 1
    cases incl with
    | false =>
        show rawExpense false txs fuels = ((by_category_expense_of txs).map Prod.snd).sum
        unfold by_category_expense_of
        rw [by_cat_fold_sum txs []]
        simp [rawExpense]
    | true =>
        show rawExpense true txs fuels
          = ((dictIncr (by_category_expense_of txs) "Fuel" (rawFuel fuels)).map
              Prod.snd).sum
        rw [dictIncr_sum]
        unfold by_category_expense_of
        rw [by_cat_fold_sum txs []]
        simp [rawExpense]
  · rw [report_by_category, sum_snd_insertionSort, List.map_map]
    rfl

/-! ### Claim C3 -/

/-- Claim C3 counterexample: the report's template context has no
`by_month` key at all — no per-month series is computed. -/
theorem by_month_absent_from_report : ("by_month" : String) ∉ reportKeys := by
  decide

/-- Claim C3 (amended): the report output contains no `by_month` mapping;
its keys are exactly request, year, income_total, expense_total,
net_total, by_category, transactions, fuel_rows and include_fuel_log, so
no monthly income/expense/net series exists in the output. -/
theorem report_fields_have_no_by_month :
    reportKeys = ["request", "year", "income_total", "expense_total", "net_total",
        "by_category", "transactions", "fuel_rows", "include_fuel_log"] ∧
      reportKeys.contains "by_month" = false :=
  ⟨rfl, by decide⟩

/-! ### Claim C4 -/

/-- Claim C4: in the fuel economy deriver, the record that is first in
date-sorted order has both derived fields absent; any record whose
odometer does not exceed its predecessor's gets both fields absent; a
present `km_since_last` is strictly positive (never negative, and the
only divisor used is that positive distance); and with non-negative
costs a present `cost_per_km` is non-negative. -/
theorem compute_fuel_stats_guards (rows : List FuelLog)
    (hc : ∀ r ∈ rows, 0 ≤ r.total_cost) :
    (∀ e, (compute_fuel_stats rows).getLast? = some e →
        e.km_since_last = none ∧ e.cost_per_km = none) ∧
    List.Chain' (fun a b : FuelLog × FuelEntry =>
        b.1.odometer_km ≤ a.1.odometer_km →
          b.2.km_since_last = none ∧ b.2.cost_per_km = none)
      ((sortFuel rows).zip (fuelEntries none (sortFuel rows))) ∧
    (∀ e ∈ compute_fuel_stats rows, ∀ km, e.km_since_last = some km → 0 < km) ∧
    (∀ e ∈ compute_fuel_stats rows, ∀ c, e.cost_per_km = some c →
        0 ≤ c ∧ ∃ km, e.km_since_last = some km ∧ 0 < km) := by
  have hsc : ∀ r ∈ sortFuel rows, 0 ≤ r.total_cost := fun r hr =>
    hc r ((List.mem_insertionSort (r := fuelLe)).mp hr)
  refine ⟨?_, fuelEntries_chain _ _, ?_, ?_⟩
  · intro e he
    unfold compute_fuel_stats at he
    rw [List.getLast?_reverse] at he
    exact fuelEntries_head he
  · intro e he km hkm
    unfold compute_fuel_stats at he
    rw [List.mem_reverse] at he
    exact (fuelEntries_mem he hsc).1 km hkm
  · intro e he c hcc
    unfold compute_fuel_stats at he
    rw [List.mem_reverse] at he
    exact (fuelEntries_mem he hsc).2 c hcc

/-- Example data for C4: odometers 250 then 200 (non-increasing). -/
def c4rows : List FuelLog :=
  [{ fill_date := ⟨2024, 1, 1⟩, odometer_km := 250, total_cost := 0 },
   { fill_date := ⟨2024, 1, 8⟩, odometer_km := 200, total_cost := 0 }]

/-- Witness for C4 at the odometer sequence `[250, 200]`. -/
theorem compute_fuel_stats_guards_witness :
    (∀ r ∈ c4rows, 0 ≤ r.total_cost) ∧
    (∀ e ∈ compute_fuel_stats c4rows, ∀ km, e.km_since_last = some km → 0 < km) := by
  have h : ∀ r ∈ c4rows, 0 ≤ r.total_cost := by
    intro r hr
    simp only [c4rows, List.mem_cons, List.not_mem_nil, or_false] at hr
    rcases hr with rfl | rfl <;> norm_num
  exact ⟨h, (compute_fuel_stats_guards c4rows h).2.2.1⟩

/-! ### Claim C6 -/

/-- Claim C6: the deriver sorts ascending by fill date with a stable sort
(equal-date records keep the order of the input sequence), derives the
fields oldest-first, and returns the list reversed, so the output is
newest-first. -/
theorem compute_fuel_stats_stable_sort_reversed (rows : List FuelLog) :
    compute_fuel_stats rows = (fuelEntries none (sortFuel rows)).reverse ∧
    List.Sorted fuelLe (sortFuel rows) ∧
    (∀ d : Date, (sortFuel rows).filter (fun r => decide (r.fill_date = d))
        = rows.filter (fun r => decide (r.fill_date = d))) ∧
    (compute_fuel_stats rows).Pairwise
      (fun a b : FuelEntry => Date.le b.fill_date a.fill_date) :=
  ⟨rfl, sortFuel_sorted rows, fun d => filter_sortFuel rows d,
    compute_fuel_stats_newest_first rows⟩

/-! ### Claim C5 -/

/-- Claim C5 counterexample: the report route accepts no `source`
parameter, so no source filter can be supplied. -/
theorem source_param_absent_from_report_query :
    ("source" : String) ∉ reportParams := by
  decide

/-- Claim C5 (amended): the report query accepts only `year` and
`include_fuel_log` (plus the request handle); there is no `source`
parameter, the `FuelLog` model has no source field, and the aggregation
applies no source restriction — the transactions it reports are exactly
the records handed to it. -/
theorem report_query_has_no_source_filter :
    reportParams = ["request", "year", "include_fuel_log"] ∧
    reportParams.contains "source" = false ∧
    fuelLogFields.contains "source" = false ∧
    (∀ (year : ℕ) (incl : Bool) (txs : List Transaction) (fuels : List FuelLog),
      (ui_report year incl txs fuels).transactions = txs) :=
  ⟨rfl, by decide, by decide, fun _ _ _ _ => rfl⟩

/-! ### Claim C7 -/

/-- Claim C7: transaction creation with a kind outside
`{income, expense}` or a source outside `{rental, work}` is rejected with
an HTTP 400 before anything touches the store, and the stored table is
returned unchanged. -/
theorem create_transaction_rejects_invalid_enum
    (tx_date source type category : String) (amount : ℚ) (vendor notes : String)
    (db : List Transaction)
    (h : (type ≠ "income" ∧ type ≠ "expense")
        ∨ (source ≠ "rental" ∧ source ≠ "work")) :
    ∃ msg, ui_create_transaction tx_date source type category amount vendor notes db
        = (HttpResult.badRequest msg, db) := by
  unfold ui_create_transaction
  by_cases ht : type ≠ "income" ∧ type ≠ "expense"
  · rw [if_pos ht]
    exact ⟨_, rfl⟩
  · rw [if_neg ht]
    have hs : source ≠ "rental" ∧ source ≠ "work" := h.resolve_left ht
    rw [if_pos hs]
    exact ⟨_, rfl⟩

/-- Witness for C7: a `transfer` kind is rejected and the store is left
unchanged. -/
theorem create_transaction_rejects_invalid_enum_witness :
    ((("transfer" : String) ≠ "income" ∧ ("transfer" : String) ≠ "expense")
        ∨ (("rental" : String) ≠ "rental" ∧ ("rental" : String) ≠ "work")) ∧
    ∃ msg, ui_create_transaction "2024-01-01" "rental" "transfer" "Misc" 5 "" "" []
        = (HttpResult.badRequest msg, []) :=
  ⟨Or.inl ⟨by decide, by decide⟩,
    create_transaction_rejects_invalid_enum "2024-01-01" "rental" "transfer" "Misc"
      5 "" "" [] (Or.inl ⟨by decide, by decide⟩)⟩

/-! ### Claim C8 -/

theorem add_category_preserves_nodup (n : String) (cats : List String)
    (h : cats.Nodup) : ((ui_add_category n cats).2).Nodup := by
  unfold ui_add_category
  by_cases h0 : pyStrip n = ""
  · simpa [h0]
  · by_cases h1 : pyStrip n ∈ cats
    · simp only [h0, if_false, h1, if_true, if_neg, if_pos]
      simpa [h0, h1]
    · simp only [if_neg h0, if_neg h1]
      refine h.append (List.nodup_singleton _) ?_
      intro a ha hb
      rw [List.mem_singleton] at hb
      exact h1 (hb ▸ ha)

theorem add_category_foldl_nodup (names : List String) (cats : List String)
    (h : cats.Nodup) :
    (names.foldl (fun s n => (ui_add_category n s).2) cats).Nodup := by
  induction names generalizing cats with
  | nil => exact h
  | cons n ns ih =>
      simp only [List.foldl_cons]
      exact ih _ (add_category_preserves_nodup n cats h)

/-- Claim C8: category creation trims the name, silently redirects (no
error) when the trimmed name is empty, is idempotent on the stored table,
and every sequence of category additions preserves uniqueness of the
stored names. -/
theorem add_category_trim_noop_idempotent_unique (name : String)
    (cats : List String) :
    (pyStrip name = "" →
      ui_add_category name cats = (HttpResult.redirect "/ui/transaction/new", cats)) ∧
    ((ui_add_category name cats).1 = HttpResult.redirect "/ui/transaction/new") ∧
    ((ui_add_category name ((ui_add_category name cats).2)).2
        = (ui_add_category name cats).2) ∧
    (∀ names : List String, cats.Nodup →
      (names.foldl (fun s n => (ui_add_category n s).2) cats).Nodup) := by
  refine ⟨?_, ?_, ?_, fun names h => add_category_foldl_nodup names cats h⟩
  · intro h0
    unfold ui_add_category
    rw [if_pos h0]
  · unfold ui_add_category
    dsimp only
    split_ifs <;> rfl
  · by_cases h0 : pyStrip name = ""
    · simp [ui_add_category, h0]
    · by_cases h1 : pyStrip name ∈ cats
      · simp [ui_add_category, h0, h1]
      · have hmem : pyStrip name ∈ cats ++ [pyStrip name] := by simp
        simp [ui_add_category, h0, h1, hmem]

/-- Witness for C8: starting from the empty table, adding `Fuel` twice
leaves the table duplicate-free. -/
theorem add_category_trim_noop_idempotent_unique_witness :
    ([] : List String).Nodup ∧
    ((["Fuel", "Fuel"].foldl (fun s n => (ui_add_category n s).2)
        ([] : List String)).Nodup) :=
  ⟨List.nodup_nil,
    (add_category_trim_noop_idempotent_unique "x" []).2.2.2 ["Fuel", "Fuel"]
      List.nodup_nil⟩

/-! ### Claim C9 -/

theorem twoDigits_spec (n : ℕ) :
    (twoDigits n).length = 2 ∧
    (twoDigits n).data.all Char.isDigit = true ∧
    (twoDigits n).data.contains '.' = false := by
  have h10 : ∀ m : ℕ, m < 10 → (Nat.digitChar m).isDigit = true := by decide
  have hdot : ∀ m : ℕ, m < 10 → ¬ (('.' : Char) = Nat.digitChar m) := by decide
  have ha : n / 10 % 10 < 10 := Nat.mod_lt _ (by norm_num)
  have hb : n % 10 < 10 := Nat.mod_lt _ (by norm_num)
  refine ⟨rfl, ?_, ?_⟩
  · show ([Nat.digitChar (n / 10 % 10), Nat.digitChar (n % 10)].all Char.isDigit)
        = true
    simp [h10 _ ha, h10 _ hb]
  · show ([Nat.digitChar (n / 10 % 10), Nat.digitChar (n % 10)].contains '.')
        = false
    simp [List.contains_cons, hdot _ ha, hdot _ hb]

/-- Claim C9: the CSV export holds exactly one `TRANSACTION` row per
transaction, in order, and one `FUEL` row per fuel record; the amount
and fuel-cost cells are `fmt2` values, whose fractional part after the
decimal point is exactly two digit characters; absent vendor and notes
are emitted as empty strings. -/
theorem export_csv_rows_and_formats (txs : List Transaction)
    (fuels : List FuelLog) :
    ((export_csv txs fuels).filter
        (fun r => decide (r.head? = some "TRANSACTION"))) = txs.map txRow ∧
    ((export_csv txs fuels).filter
        (fun r => decide (r.head? = some "FUEL"))) = fuels.map fuelRow ∧
    (∀ t : Transaction,
      (txRow t).get? 5 = some (fmt2 t.amount) ∧
      (txRow t).get? 6 = some (t.vendor.getD "") ∧
      (txRow t).get? 7 = some (t.notes.getD "")) ∧
    (∀ f : FuelLog,
      (fuelRow f).get? 3 = some (fmt2 f.total_cost) ∧
      (fuelRow f).get? 4 = some (f.notes.getD "")) ∧
    (∀ x : ℚ, ∃ s : String,
      fmt2 x = s ++ "." ++ twoDigits ((pyRoundInt (x * 100)).natAbs % 100) ∧
      (twoDigits ((pyRoundInt (x * 100)).natAbs % 100)).length = 2 ∧
      (twoDigits ((pyRoundInt (x * 100)).natAbs % 100)).data.all Char.isDigit
          = true ∧
      (twoDigits ((pyRoundInt (x * 100)).natAbs % 100)).data.contains '.'
          = false) := by
  refine ⟨?_, ?_, fun t => ⟨rfl, rfl, rfl⟩, fun f => ⟨rfl, rfl⟩, fun x => ?_⟩
  · simp [export_csv, txRow, fuelRow, List.filter_append, List.filter_map,
      Function.comp_def]
  · simp [export_csv, txRow, fuelRow, List.filter_append, List.filter_map,
      Function.comp_def]
  · refine ⟨(if pyRoundInt (x * 100) < 0 then "-" else "")
        ++ toString ((pyRoundInt (x * 100)).natAbs / 100), rfl, twoDigits_spec _⟩

/-! ### Claim C10 -/

/-- Claim C10: with fold-fuel mode active the report's `by_category`
always contains a `Fuel` entry; and when there are no fuel records and no
expense transaction in category `Fuel`, that entry is `("Fuel", 0.00)`. -/
theorem report_by_category_always_has_fuel (year : ℕ)
    (txs : List Transaction) (fuels : List FuelLog) :
    (∃ v, ("Fuel", v) ∈ (ui_report year true txs fuels).by_category) ∧
    (fuels = [] →
      (∀ t ∈ txs, t.type = "expense" → t.category ≠ "Fuel") →
      ("Fuel", (0 : ℚ)) ∈ (ui_report year true txs fuels).by_category) := by
  have hmem : ("Fuel", dictGet (by_category_expense_of txs) "Fuel" 0 + rawFuel fuels)
      ∈ byCategoryRaw true txs fuels := by
    simp only [byCategoryRaw, if_pos]
    exact mem_dictIncr_self _ _ _
  constructor
  · refine ⟨round2 (dictGet (by_category_expense_of txs) "Fuel" 0 + rawFuel fuels), ?_⟩
    rw [report_by_category]
    exact (List.mem_insertionSort (r := catLe)).mpr
      (List.mem_map_of_mem (fun p => (p.1, round2 p.2)) hmem)
  · intro hf hcat
    have hkeys : "Fuel" ∉ (by_category_expense_of txs).map Prod.fst := by
      unfold by_category_expense_of
      exact by_cat_fold_keys txs [] "Fuel" (by simp) hcat
    have hget : dictGet (by_category_expense_of txs) "Fuel" 0 = 0 :=
      dictGet_of_not_mem _ _ _ hkeys
    have hfuel : rawFuel fuels = 0 := by simp [hf, rawFuel]
    rw [hget, hfuel] at hmem
    rw [report_by_category]
    have h0 : ((0 : ℚ) + 0) = 0 := by norm_num
    rw [h0] at hmem
    have hmap : ("Fuel", round2 0)
        ∈ (byCategoryRaw true txs fuels).map (fun p => (p.1, round2 p.2)) :=
      List.mem_map_of_mem (fun p : String × ℚ => (p.1, round2 p.2)) hmem
    rw [round2_zero] at hmap
    exact (List.mem_insertionSort (r := catLe)).mpr hmap

/-- Witness for C10: the empty report in fold-fuel mode reports
`("Fuel", 0)`. -/
theorem report_by_category_always_has_fuel_witness :
    ("Fuel", (0 : ℚ)) ∈ (ui_report 2024 true [] []).by_category :=
  (report_by_category_always_has_fuel 2024 [] []).2 rfl (by simp)

end Tracker
